import Mathlib

/-!
Verification of the fastcgi++ SQL facilities (`include/fastcgi++/sql.hpp`).

The development shallowly embeds the data-binding layer
(`Fastcgipp::Sql::Data`: `Nullable`, `Set`, `SetContainerPar`,
`SetContainer`) and the worker-pool layer
(`Fastcgipp::Sql::ConnectionPar`: `start`, `terminate`, `queue`,
`intHandler`) as Lean definitions and a small-step transition system,
and proves the specified properties about them.
-/

namespace Fastcgipp.Sql.Data

/-- Model of `Nullable<T>` (sql.hpp lines 125-132).  The C++ class stores a
`nullness` flag (inherited from `NullablePar`) together with the wrapped
`object`.  The default constructor is `Nullable(): NullablePar(false) {}`
(the object is default-initialized, modelled via `Inhabited`); the value
constructor is `Nullable(const T& x): NullablePar(false), object(x) {}`. -/
structure Nullable (T : Type) where
  nullness : Bool
  object : T
deriving DecidableEq, Repr

/-- `Nullable(): NullablePar(false) {}` — the default constructor. -/
def Nullable.mkDefault (T : Type) [Inhabited T] : Nullable T :=
  { nullness := false, object := default }

/-- `Nullable(const T& x): NullablePar(false), object(x) { }`. -/
def Nullable.ofVal {T : Type} (x : T) : Nullable T :=
  { nullness := false, object := x }

/-- `operator T() { return object; }` — reading the wrapped value back. -/
def Nullable.toVal {T : Type} (n : Nullable T) : T := n.object

/-- Model of the base-class default `Set::getSqlSize` (sql.hpp line 309):
`virtual size_t getSqlSize(size_t index) const { }`.  The C++ body contains
no `return` statement, so the function defines no return value for any
index; this absence of a defined value is modelled by returning `none` in
an `Option Nat`, for every index. -/
def Set.getSqlSize (index : Nat) : Option Nat := none

/-- Model of `SetContainerPar::trim` (sql.hpp line 352):
`void trim() { data.erase(--data.end()); }`.  The container `data` is a
`std::list`; `--data.end()` is the iterator to the last element when the
list is non-empty, so `trim` erases the last element.  On an empty list
`--data.end()` decrements the begin/end iterator, which is undefined; that
case is modelled as `none`. -/
def SetContainerPar.trim {α : Type} (data : List α) : Option (List α) :=
  match data with
  | [] => none
  | _ :: _ => some data.dropLast

/-- `size_t size() const { return data.size(); }` (sql.hpp line 354). -/
def SetContainerPar.size {α : Type} (data : List α) : Nat := data.length

/-- `bool empty() const { return data.empty(); }` (sql.hpp line 355). -/
def SetContainerPar.isEmpty {α : Type} (data : List α) : Bool := data.isEmpty

/-- Model of `SetContainer<T>::manufacture` (sql.hpp line 422):
`data.push_back(boost::shared_ptr<Set>(new T)); return --data.end();`.
A fresh element is appended at the back of the list and an iterator to it
(modelled by its index, `--data.end()` being position `data.length`) is
returned; the caller populates the element through that handle, so the
element's eventual value `x` is passed explicitly here. -/
def SetContainer.manufacture {α : Type} (data : List α) (x : α) :
    List α × Nat :=
  (data ++ [x], data.length)

/-- Repeated `manufacture`: append the elements of `xs` one at a time. -/
def SetContainer.manufactureAll {α : Type} (data : List α) (xs : List α) :
    List α :=
  xs.foldl (fun d x => (SetContainer.manufacture d x).1) data

/-- Forward iteration over the container (sql.hpp lines 369-412): starting
from `begin()` (index 0) and applying `operator++` until `end()` (index
`data.length`), dereferencing at each position.  `List.ofFn` collects
`data.get 0, data.get 1, …` in that index order. -/
def SetContainer.toListFwd {α : Type} (data : List α) : List α :=
  List.ofFn data.get

theorem SetContainer.manufactureAll_eq {α : Type} (xs : List α) :
    ∀ data : List α, SetContainer.manufactureAll data xs = data ++ xs := by
  induction xs with
  | nil => intro data; simp [SetContainer.manufactureAll]
  | cons x xs ih =>
      intro data
      simp only [SetContainer.manufactureAll, List.foldl_cons] at *
      rw [ih (SetContainer.manufacture data x).1]
      simp [SetContainer.manufacture]

theorem SetContainer.toListFwd_eq {α : Type} (data : List α) :
    SetContainer.toListFwd data = data := by
  simp [SetContainer.toListFwd, List.ofFn_get]

theorem SetContainerPar.trim_append {α : Type} (l : List α) (x : α) :
    SetContainerPar.trim (l ++ [x]) = some l := by
  cases h : l ++ [x] with
  | nil => simp at h
  | cons a t =>
      simp only [SetContainerPar.trim]
      rw [← h]
      simp [List.dropLast_concat]

end Fastcgipp.Sql.Data

namespace Fastcgipp.Sql

/-- Modelled from the spec: the completion `Message` type comes from
`fastcgi++/message.hpp`, which is not among the sources; per the spec a
completion message "carries a type tag (fixed per Connection instance) and
a byte payload".  The fields mirror the uses in sql.hpp lines 639-654:
`message.type`, `message.size`, and the byte buffer `message.data`
(modelled as a list of characters whose length is `size`). -/
structure Message where
  type : Int
  size : Nat
  data : List Char
deriving DecidableEq, Repr

/-- Model of `ConnectionPar<T>::Query` (sql.hpp lines 499-507).  For the
properties proved here only two aspects of a work item are relevant: what
its statement's `execute` does when the worker runs it (`err = none`:
returns normally; `err = some desc`: throws a `std::exception` whose
`what()` string is `desc`), and the identity of its completion callback
(`cbId`), used to record callback invocations. -/
structure Query where
  err : Option String
  cbId : Nat
deriving DecidableEq, Repr

/-- The completion message a worker builds for a work item
(sql.hpp lines 639-652):
`message.type=typeVal; message.size=0;` then
`try { execute(...) } catch(std::exception& e) {
  message.size=std::strlen(e.what()+1);
  message.data.reset(new char[message.size]);
  std::memcpy(message.data.get(), e.what(), message.size); }`.
On success the message keeps `size = 0` and no data.  On an exception the
size is `strlen(e.what()+1)`, i.e. the length of `what()` minus one when
`what()` is non-empty (for an empty `what()` the C++ reads past the
terminator, which is undefined; `Nat` subtraction yields 0 there), and the
payload is the first `size` bytes of `what()`. -/
def execMessage (typeVal : Int) (q : Query) : Message :=
  match q.err with
  | none => { type := typeVal, size := 0, data := [] }
  | some desc =>
      { type := typeVal
        size := desc.length - 1
        data := desc.toList.take (desc.length - 1) }

/-- The phase a worker thread (one execution of
`ConnectionPar<T>::intHandler`, sql.hpp lines 609-662) is in.  A worker in
`checkTerm` is at the top of the `while(1)` loop, about to lock
`terminateMutex` and test `terminateBool`; `waiting` is blocked in
`wakeUp.wait(queriesLock)`; `run q` has popped `q` off the queue and is
executing it; `exited` has broken out of the loop and decremented the
`threads` counter. -/
inductive WPhase where
  | checkTerm
  | waiting
  | run (q : Query)
  | exited
deriving DecidableEq, Repr

/-- The shared state of a `ConnectionPar<T>` (sql.hpp lines 493-526,
459-491): the FIFO `queries` queue, the `terminateBool` flag, and the,
worker threads (the `threads` counter equals the number of workers not yet
`exited`, see `liveThreads`).  `delivered` records the callback
invocations `query.callback(message)` (sql.hpp line 654) as pairs of the
callback identity and the message; `enqLog` and `deqLog` record the
enqueue and dequeue order, for stating the FIFO property.  Mutex-protected
accesses are modelled as atomic steps. -/
structure PoolState where
  queue : List Query
  terminateBool : Bool
  workers : List WPhase
  delivered : List (Nat × Message)
  enqLog : List Query
  deqLog : List Query
deriving DecidableEq, Repr

/-- The `threads` counter: incremented by each worker on entry
(sql.hpp lines 611-614) and decremented on exit (lines 657-660), so it
equals the number of workers that have not exited. -/
def liveThreads (s : PoolState) : Nat :=
  s.workers.countP (fun w => match w with | WPhase.exited => false | _ => true)

/-- A condition-variable wake: `notify_one` or `notify_all`. -/
inductive Wake where
  | one
  | all
deriving DecidableEq, Repr

/-- Model of `ConnectionPar<T>::queue` (sql.hpp lines 664-678): under
`queriesLock` (atomic here), `queries.push(...)` appends the new work item
at the back of the `std::queue` and fills its fields, then
`wakeUp.notify_one()` wakes one waiting worker.  The enqueue log records
the item for the FIFO statement. -/
def ConnectionPar.queuePush (s : PoolState) (q : Query) : PoolState × Wake :=
  ({ s with queue := s.queue ++ [q], enqLog := s.enqLog ++ [q] }, Wake.one)

/-- Model of the body of `ConnectionPar<T>::terminate`
(sql.hpp lines 596-602): under `terminateMutex`, `terminateBool=true`;
then `wakeUp.notify_all()` — a broadcast on the queue condition. -/
def ConnectionPar.terminateRun (s : PoolState) : PoolState × Wake :=
  ({ s with terminateBool := true }, Wake.all)

/-- Model of terminate's blocking wait (sql.hpp lines 604-606):
`while(threads) threadsChanged.wait(threadsLock);` — `terminate()` can
return exactly in the states where the `threads` counter is 0. -/
def ConnectionPar.terminateReturnCond (s : PoolState) : Prop :=
  liveThreads s = 0

/-- Model of `ConnectionPar<T>::start` (sql.hpp lines 581-594): first
`terminateBool=false` under `terminateMutex`; then
`while(threads<maxThreads) { boost::thread(intHandler); threadsChanged.wait(threadsLock); }`.
Each loop iteration spawns one `intHandler` thread and waits until the new
worker has incremented `threads` and signalled `threadsChanged`
(sql.hpp lines 611-615), so the loop runs once per missing worker:
`maxThreads - threads` new workers are spawned, each entering the loop at
`checkTerm`, and `start` returns with `threads = maxThreads`. -/
def ConnectionPar.startRun (maxThreads : Nat) (s : PoolState) : PoolState :=
  { s with
      terminateBool := false
      workers :=
        s.workers ++ List.replicate (maxThreads - liveThreads s) WPhase.checkTerm }

/-- Small-step transition relation of the pool, parameterized by the
connection's `typeVal`.  Worker steps follow `intHandler`
(sql.hpp lines 620-655); `enqueue` is `ConnectionPar<T>::queue`; `termSet`
is the flag-setting phase of `terminate`.  Each mutex-protected critical
section is one atomic step.
* `checkExit`: the worker locks `terminateMutex`, sees `terminateBool`
  true, breaks out of the loop and decrements `threads` (modelled by
  moving to `exited`, which `liveThreads` does not count).
* `checkDeq`: `terminateBool` is false; under `queriesLock` the queue is
  non-empty, so the worker copies `queries.front()` and `queries.pop()`s it.
* `checkWait`: `terminateBool` is false and the queue is empty, so the
  worker calls `wakeUp.wait(queriesLock)`.
* `wake`: a waiting worker wakes (by `notify_one`, `notify_all`, or
  spuriously), reacquires and releases the lock, and `continue`s to the
  top of the loop.
* `runStep`: the worker executes the statement, builds the completion
  message (`execMessage`), invokes `query.callback(message)`, and loops.
-/
inductive Step (tv : Int) : PoolState → PoolState → Prop where
  | checkExit (s : PoolState) (i : Nat)
      (hw : s.workers.get? i = some WPhase.checkTerm)
      (ht : s.terminateBool = true) :
      Step tv s { s with workers := s.workers.set i WPhase.exited }
  | checkDeq (s : PoolState) (i : Nat) (q : Query) (rest : List Query)
      (hw : s.workers.get? i = some WPhase.checkTerm)
      (ht : s.terminateBool = false)
      (hq : s.queue = q :: rest) :
      Step tv s { s with
        workers := s.workers.set i (WPhase.run q)
        queue := rest
        deqLog := s.deqLog ++ [q] }
  | checkWait (s : PoolState) (i : Nat)
      (hw : s.workers.get? i = some WPhase.checkTerm)
      (ht : s.terminateBool = false)
      (hq : s.queue = []) :
      Step tv s { s with workers := s.workers.set i WPhase.waiting }
  | wake (s : PoolState) (i : Nat)
      (hw : s.workers.get? i = some WPhase.waiting) :
      Step tv s { s with workers := s.workers.set i WPhase.checkTerm }
  | runStep (s : PoolState) (i : Nat) (q : Query)
      (hw : s.workers.get? i = some (WPhase.run q)) :
      Step tv s { s with
        workers := s.workers.set i WPhase.checkTerm
        delivered := s.delivered ++ [(q.cbId, execMessage tv q)] }
  | enqueue (s : PoolState) (q : Query) :
      Step tv s (ConnectionPar.queuePush s q).1
  | termSet (s : PoolState) :
      Step tv s (ConnectionPar.terminateRun s).1

/-- Reflexive-transitive closure of `Step`. -/
inductive StepStar (tv : Int) : PoolState → PoolState → Prop where
  | refl (s : PoolState) : StepStar tv s s
  | tail {s t u : PoolState} (h : StepStar tv s t) (hs : Step tv t u) :
      StepStar tv s u

/-- Executions containing no `enqueue` step (every step leaves the enqueue
log unchanged; only `enqueue` extends it).  Used for claims about items
all enqueued before the steps under consideration. -/
inductive NoEnqStar (tv : Int) : PoolState → PoolState → Prop where
  | refl (s : PoolState) : NoEnqStar tv s s
  | tail {s t u : PoolState} (h : NoEnqStar tv s t) (hs : Step tv t u)
      (henq : u.enqLog = t.enqLog) : NoEnqStar tv s u

/-- Number of queued items carrying callback identity `c`. -/
def queueCount (c : Nat) (l : List Query) : Nat :=
  l.countP (fun q => q.cbId == c)

/-- Number of workers currently executing an item with callback `c`. -/
def runCount (c : Nat) (ws : List WPhase) : Nat :=
  ws.countP (fun w => match w with | WPhase.run q => q.cbId == c | _ => false)

/-- Number of delivered completion messages for callback `c`. -/
def delivCount (c : Nat) (l : List (Nat × Message)) : Nat :=
  l.countP (fun d => d.1 == c)

/-- Total occurrences of callback `c` across the queue, the running
workers and the delivered log: the conserved quantity of the pool. -/
def occ (c : Nat) (s : PoolState) : Nat :=
  queueCount c s.queue + runCount c s.workers + delivCount c s.delivered

/-- The FIFO log invariant: everything ever enqueued is the dequeued
items, in dequeue order, followed by the items still in the queue. -/
def QueueInv (s : PoolState) : Prop := s.enqLog = s.deqLog ++ s.queue

theorem countP_set_add {α : Type} (p : α → Bool) :
    ∀ (l : List α) (i : Nat) (a b : α), l.get? i = some a →
      (l.set i b).countP p + (if p a then 1 else 0)
        = l.countP p + (if p b then 1 else 0) := by
  intro l
  induction l with
  | nil => intro i a b h; simp at h
  | cons x t ih =>
      intro i a b h
      cases i with
      | zero =>
          simp only [List.get?] at h
          injection h with h
          subst h
          simp only [List.set, List.countP_cons]
          omega
      | succ j =>
          simp only [List.get?] at h
          have hrec := ih j a b h
          simp only [List.set, List.countP_cons]
          omega

theorem countP_replicate_eq {α : Type} (p : α → Bool) (n : Nat) (a : α) :
    (List.replicate n a).countP p = if p a then n else 0 := by
  induction n with
  | zero => simp
  | succ m ih =>
      simp only [List.replicate, List.countP_cons, ih]
      by_cases h : p a = true <;> simp [h]

theorem queueInv_step {tv : Int} {s s' : PoolState} (h : Step tv s s') :
    QueueInv s → QueueInv s' := by
  cases h <;>
    simp_all [QueueInv, ConnectionPar.queuePush, ConnectionPar.terminateRun]

theorem queueInv_star {tv : Int} {s s' : PoolState} (h : StepStar tv s s') :
    QueueInv s → QueueInv s' := by
  induction h with
  | refl => exact fun h => h
  | tail h hs ih => exact fun h0 => queueInv_step hs (ih h0)

theorem exited_of_liveThreads_zero {s : PoolState} {i : Nat} {w : WPhase}
    (h0 : liveThreads s = 0) (hw : s.workers.get? i = some w) :
    w = WPhase.exited := by
  have hmem : w ∈ s.workers := List.get?_mem hw
  have hall := List.countP_eq_zero.mp h0 w hmem
  cases w with
  | exited => rfl
  | checkTerm => simp at hall
  | waiting => simp at hall
  | run q => simp at hall

theorem dropped_step {tv : Int} {s s' : PoolState} (h : Step tv s s')
    (h0 : liveThreads s = 0) :
    s'.delivered = s.delivered ∧ s.queue <+: s'.queue ∧ liveThreads s' = 0 := by
  cases h with
  | checkExit i hw ht =>
      exact absurd (exited_of_liveThreads_zero h0 hw) (by simp)
  | checkDeq i q rest hw ht hq =>
      exact absurd (exited_of_liveThreads_zero h0 hw) (by simp)
  | checkWait i hw ht hq =>
      exact absurd (exited_of_liveThreads_zero h0 hw) (by simp)
  | wake i hw =>
      exact absurd (exited_of_liveThreads_zero h0 hw) (by simp)
  | runStep i q hw =>
      exact absurd (exited_of_liveThreads_zero h0 hw) (by simp)
  | enqueue q =>
      refine ⟨rfl, ⟨[q], rfl⟩, ?_⟩
      simpa [ConnectionPar.queuePush, liveThreads] using h0
  | termSet =>
      exact ⟨rfl, List.prefix_refl _, by simpa [liveThreads] using h0⟩

theorem dropped_star {tv : Int} {s s' : PoolState} (h : StepStar tv s s')
    (h0 : liveThreads s = 0) :
    s'.delivered = s.delivered ∧ s.queue <+: s'.queue ∧ liveThreads s' = 0 := by
  induction h with
  | refl => exact ⟨rfl, List.prefix_refl _, h0⟩
  | tail h hs ih =>
      obtain ⟨hd, hp, hl⟩ := ih
      obtain ⟨hd', hp', hl'⟩ := dropped_step hs hl
      exact ⟨hd'.trans hd, hp.trans hp', hl'⟩

theorem occ_step {tv : Int} {c : Nat} {s s' : PoolState} (h : Step tv s s')
    (henq : s'.enqLog = s.enqLog) : occ c s' = occ c s := by
  cases h with
  | checkExit i hw ht =>
      have hc := countP_set_add
        (fun w => match w with | WPhase.run q => q.cbId == c | _ => false)
        s.workers i WPhase.checkTerm WPhase.exited hw
      simp only [if_neg, Bool.false_eq_true, not_false_eq_true,
        Nat.add_zero] at hc
      simp [occ, runCount, hc]
  | checkDeq i q rest hw ht hq =>
      have hc := countP_set_add
        (fun w => match w with | WPhase.run q => q.cbId == c | _ => false)
        s.workers i WPhase.checkTerm (WPhase.run q) hw
      simp only [occ, queueCount, runCount, delivCount, hq, List.countP_cons]
      simp only [Bool.false_eq_true, if_false, Nat.add_zero] at hc
      omega
  | checkWait i hw ht hq =>
      have hc := countP_set_add
        (fun w => match w with | WPhase.run q => q.cbId == c | _ => false)
        s.workers i WPhase.checkTerm WPhase.waiting hw
      simp only [if_neg, Bool.false_eq_true, not_false_eq_true,
        Nat.add_zero] at hc
      simp [occ, runCount, hc]
  | wake i hw =>
      have hc := countP_set_add
        (fun w => match w with | WPhase.run q => q.cbId == c | _ => false)
        s.workers i WPhase.waiting WPhase.checkTerm hw
      simp only [if_neg, Bool.false_eq_true, not_false_eq_true,
        Nat.add_zero] at hc
      simp [occ, runCount, hc]
  | runStep i q hw =>
      have hc := countP_set_add
        (fun w => match w with | WPhase.run q => q.cbId == c | _ => false)
        s.workers i (WPhase.run q) WPhase.checkTerm hw
      simp only [Bool.false_eq_true, if_false, Nat.add_zero] at hc
      simp only [occ, queueCount, runCount, delivCount, List.countP_append,
        List.countP_cons, List.countP_nil]
      omega
  | enqueue q =>
      have hlen := congrArg List.length henq
      simp [ConnectionPar.queuePush] at hlen
  | termSet =>
      simp [occ, ConnectionPar.terminateRun]

theorem occ_noEnqStar {tv : Int} {c : Nat} {s s' : PoolState}
    (h : NoEnqStar tv s s') : occ c s' = occ c s := by
  induction h with
  | refl => rfl
  | tail h hs henq ih => rw [occ_step hs henq, ih]

/-- A work item that succeeds, with callback identity 7. -/
def q5 : Query := { err := none, cbId := 7 }

/-- One fresh worker, one enqueued item, not yet terminating. -/
def s5a : PoolState :=
  { queue := [q5], terminateBool := false, workers := [WPhase.checkTerm],
    delivered := [], enqLog := [q5], deqLog := [] }

/-- `s5a` after `terminate()` has set the stop flag. -/
def s5b : PoolState := { s5a with terminateBool := true }

/-- `s5b` after the worker observed the flag and exited. -/
def s5c : PoolState := { s5b with workers := [WPhase.exited] }

/-- A work item whose `execute` throws with `what() = "duplicate key"`. -/
def qErr : Query := { err := some "duplicate key", cbId := 1 }

/-- A work item whose `execute` succeeds, with callback identity 2. -/
def qOk : Query := { err := none, cbId := 2 }

/-- One worker executing the failing item `qErr`, with `qOk` queued. -/
def s3a : PoolState :=
  { queue := [qOk], terminateBool := false, workers := [WPhase.run qErr],
    delivered := [], enqLog := [qErr, qOk], deqLog := [qErr] }

/-- `s3a` after the worker caught the failure and invoked the callback. -/
def s3b : PoolState :=
  { s3a with
    workers := [WPhase.checkTerm]
    delivered := [(1, execMessage 5 qErr)] }

/-- `s3b` after the worker dequeued the next item `qOk`. -/
def s3c : PoolState :=
  { s3b with
    workers := [WPhase.run qOk]
    queue := []
    deqLog := [qErr, qOk] }

/-- `s3c` after `qOk` completed successfully. -/
def s3d : PoolState :=
  { s3c with
    workers := [WPhase.checkTerm]
    delivered := s3c.delivered ++ [(2, execMessage 5 qOk)] }

/-- All workers exited, one item left unclaimed in the queue. -/
def s4 : PoolState :=
  { queue := [{ err := none, cbId := 3 }], terminateBool := true,
    workers := [WPhase.exited], delivered := [],
    enqLog := [{ err := none, cbId := 3 }], deqLog := [] }

/-- One live worker, the stop flag still set from a previous terminate. -/
def s7 : PoolState :=
  { queue := [], terminateBool := true, workers := [WPhase.checkTerm],
    delivered := [], enqLog := [], deqLog := [] }

/-- A work item with callback identity 4, for the FIFO witness. -/
def s6q : Query := { err := none, cbId := 4 }

/-- A state whose logs satisfy the FIFO invariant. -/
def s6 : PoolState :=
  { queue := [s6q], terminateBool := false, workers := [],
    delivered := [], enqLog := [s6q], deqLog := [] }

end Fastcgipp.Sql

open Fastcgipp.Sql Fastcgipp.Sql.Data

/-- C1: evaluation of the worker's completion-message construction
(sql.hpp lines 639-652) at a failing item.  The claim states that the
payload bytes equal the error's description; the code computes
`message.size = std::strlen(e.what()+1)` — the length of the description
minus one — and copies only that many bytes, so for a description
"duplicate key" the delivered payload is "duplicate ke" (12 bytes), not
the 13-byte description, and for a one-character description the payload
is empty rather than non-empty.  The success half (empty payload, size 0)
does hold. -/
theorem claim_C1_error_payload :
    (execMessage 5 { err := some "duplicate key", cbId := 0 }).data
        = "duplicate ke".toList
    ∧ "duplicate ke".toList ≠ "duplicate key".toList
    ∧ (execMessage 5 { err := some "duplicate key", cbId := 0 }).size = 12
    ∧ (execMessage 5 { err := some "x", cbId := 0 }).size = 0
    ∧ (execMessage 5 { err := none, cbId := 0 }).size = 0 := by
  refine ⟨by decide, by decide, by decide, by decide, by decide⟩

/-- C2 counterexample: the claim states that a default-constructed
`Nullable` reports null (null flag true), but the default constructor is
`Nullable(): NullablePar(false) {}` (sql.hpp line 130): the flag is
false. -/
theorem claim_C2_counterexample :
    (Nullable.mkDefault Int).nullness ≠ true := by decide

/-- C2 (amended): a default-constructed `Nullable` reports not-null (its
null flag is false); a `Nullable` constructed from a value `x` reports
not-null and stores `x`, so reading it back returns `x`. -/
theorem claim_C2_nullable_roundtrip (x : Int) :
    (Nullable.mkDefault Int).nullness = false
    ∧ (Nullable.ofVal x).nullness = false
    ∧ (Nullable.ofVal x).toVal = x :=
  ⟨rfl, rfl, rfl⟩

/-- C3: a concrete execution of the worker loop (sql.hpp lines 620-655)
in which the statement's `execute` for `qErr` throws: the failure is
caught at the loop boundary, a completion message is delivered through
`qErr`'s callback, and the same worker neither exits the loop
(`liveThreads` stays 1, its phase returns to the loop top) nor skips the
subsequent queued item `qOk`, which it dequeues and completes.  The final
conjunct records the divergence from the claim: the delivered payload is
the failure's description minus its last byte (`strlen(e.what()+1)`), not
the description itself. -/
theorem claim_C3_worker_boundary :
    StepStar 5 s3a s3d
    ∧ s3d.workers = [WPhase.checkTerm]
    ∧ liveThreads s3d = 1
    ∧ s3d.delivered
        = [(1, { type := 5, size := 12, data := "duplicate ke".toList }),
           (2, { type := 5, size := 0, data := [] })]
    ∧ (execMessage 5 qErr).data ≠ "duplicate key".toList := by
  refine ⟨?_, by decide, by decide, by decide, by decide⟩
  exact StepStar.tail (StepStar.tail (StepStar.tail (StepStar.refl s3a)
      (Step.runStep s3a 0 qErr rfl)) (Step.checkDeq s3b 0 qOk [] rfl rfl rfl))
    (Step.runStep s3c 0 qOk rfl)

/-- C4: `terminate()` (sql.hpp lines 596-607) sets the stop flag
(`terminateBool=true` under `terminateMutex`) and then broadcasts on the
queue condition (`wakeUp.notify_all()`, wake-all not wake-one); it can
return only in a state where the live-worker counter is 0
(`while(threads) threadsChanged.wait(...)`, `terminateReturnCond`).  From
any such state, under any further steps, nothing more is ever delivered
and the unclaimed queue contents remain at the front of the queue, never
dequeued: their callbacks are never invoked. -/
theorem claim_C4_terminate_semantics (tv : Int) (s t u : PoolState)
    (hret : ConnectionPar.terminateReturnCond t)
    (hstar : StepStar tv t u) :
    ((ConnectionPar.terminateRun s).1.terminateBool = true
      ∧ (ConnectionPar.terminateRun s).2 = Wake.all)
    ∧ (u.delivered = t.delivered ∧ t.queue <+: u.queue
        ∧ ConnectionPar.terminateReturnCond u) := by
  obtain ⟨hd, hp, hl⟩ := dropped_star hstar hret
  exact ⟨⟨rfl, rfl⟩, hd, hp, hl⟩

/-- Witness for C4 at the concrete state `s4` (all workers exited, one
unclaimed item), with the empty continuation of steps. -/
theorem claim_C4_terminate_semantics_witness :
    ConnectionPar.terminateReturnCond s4
    ∧ (((ConnectionPar.terminateRun s4).1.terminateBool = true
        ∧ (ConnectionPar.terminateRun s4).2 = Wake.all)
      ∧ (s4.delivered = s4.delivered ∧ s4.queue <+: s4.queue
          ∧ ConnectionPar.terminateReturnCond s4)) :=
  ⟨by show liveThreads s4 = 0; decide,
    claim_C4_terminate_semantics 5 s4 s4 s4
      (by show liveThreads s4 = 0; decide) (StepStar.refl s4)⟩

/-- C5 counterexample: the item `q5` is in the queue before `terminate()`
is called, yet there is an execution (set the stop flag; the worker
observes it and exits without draining the queue) that reaches a state
where `terminate()` returns (live-worker count 0) with `q5`'s callback
invoked zero times — not exactly once as the claim states. -/
theorem claim_C5_counterexample :
    StepStar 5 s5a s5c
    ∧ q5 ∈ s5a.queue
    ∧ s5a.terminateBool = false
    ∧ ConnectionPar.terminateReturnCond s5c
    ∧ delivCount q5.cbId s5c.delivered = 0
    ∧ delivCount q5.cbId s5c.delivered ≠ 1 := by
  refine ⟨?_, by decide, by decide, by show liveThreads s5c = 0; decide,
    by decide, by decide⟩
  exact StepStar.tail (StepStar.tail (StepStar.refl s5a)
    (Step.termSet s5a)) (Step.checkExit s5b 0 rfl rfl)

/-- C5 (amended): with all items already enqueued (no further enqueue
steps) and distinct callbacks — at most one queued item per callback
identity, none currently running or delivered — every callback is invoked
at most once in any execution: no duplicates.  (Exactly-once fails: items
never dequeued before the workers stop are dropped and their callbacks
never invoked, see the counterexample.) -/
theorem claim_C5_at_most_once (tv : Int) (c : Nat) (s₀ s : PoolState)
    (hq : queueCount c s₀.queue ≤ 1)
    (hr : runCount c s₀.workers = 0)
    (hd : delivCount c s₀.delivered = 0)
    (hstar : NoEnqStar tv s₀ s) :
    delivCount c s.delivered ≤ 1 := by
  have hocc := occ_noEnqStar (c := c) hstar
  have h1 : occ c s₀ ≤ 1 := by
    simp only [occ, hr, hd]
    omega
  have h2 : delivCount c s.delivered ≤ occ c s :=
    Nat.le_add_left _ _
  omega

/-- Witness for C5 (amended) at the concrete state `s5a` with the empty
execution. -/
theorem claim_C5_at_most_once_witness :
    (queueCount 7 s5a.queue ≤ 1 ∧ runCount 7 s5a.workers = 0
      ∧ delivCount 7 s5a.delivered = 0)
    ∧ delivCount 7 s5a.delivered ≤ 1 :=
  ⟨⟨by decide, by decide, by decide⟩,
    claim_C5_at_most_once 5 7 s5a s5a (by decide) (by decide) (by decide)
      (NoEnqStar.refl s5a)⟩

/-- C6: `ConnectionPar::queue` (sql.hpp lines 664-678) appends the new
work item at the tail of the FIFO (under `queriesLock`, one atomic step)
and wakes exactly one waiting worker (`wakeUp.notify_one()`, `Wake.one`
not `Wake.all`); workers dequeue from the front (`queries.front()` then
`queries.pop()`, the `checkDeq` step), so in every execution the dequeue
log stays a prefix of the enqueue log: items are dequeued in FIFO
(enqueue) order. -/
theorem claim_C6_queue_fifo (tv : Int) (s s' : PoolState) (q : Query)
    (hinv : QueueInv s) (hstar : StepStar tv s s') :
    ((ConnectionPar.queuePush s q).1.queue = s.queue ++ [q]
      ∧ (ConnectionPar.queuePush s q).2 = Wake.one)
    ∧ (QueueInv s' ∧ s'.deqLog <+: s'.enqLog) := by
  have hinv' := queueInv_star hstar hinv
  exact ⟨⟨rfl, rfl⟩, hinv', ⟨s'.queue, hinv'.symm⟩⟩

/-- Witness for C6 at the concrete state `s6` with the empty execution. -/
theorem claim_C6_queue_fifo_witness :
    QueueInv s6
    ∧ (((ConnectionPar.queuePush s6 s6q).1.queue = s6.queue ++ [s6q]
        ∧ (ConnectionPar.queuePush s6 s6q).2 = Wake.one)
      ∧ (QueueInv s6 ∧ s6.deqLog <+: s6.enqLog)) :=
  ⟨rfl, claim_C6_queue_fifo 5 s6 s6 s6q rfl (StepStar.refl s6)⟩

/-- C7 counterexample: the claim states that calling `start()` when the
live-worker count already equals the configured size changes no state;
but `start()` unconditionally clears the stop flag first
(`terminateBool=false`, sql.hpp lines 584-585), so at `s7` (one live
worker, configured size 1, stop flag set) `start()` does change the
state. -/
theorem claim_C7_counterexample :
    liveThreads s7 = 1 ∧ ConnectionPar.startRun 1 s7 ≠ s7 := by
  exact ⟨by decide, by decide⟩

/-- C7 (amended): `start()` (sql.hpp lines 581-594) spawns exactly the
deficit `maxThreads - threads` of worker threads (each spawned
`intHandler` increments the `threads` counter and signals
`threadsChanged`, and `start()` waits after each spawn), returns with the
counter at `maxThreads`, and leaves the stop flag cleared; when the live
count already equals `maxThreads` it spawns no threads and changes no
state other than clearing the stop flag. -/
theorem claim_C7_start_deficit (maxThreads : Nat) (s : PoolState)
    (h : liveThreads s ≤ maxThreads) :
    (ConnectionPar.startRun maxThreads s).workers.length
        = s.workers.length + (maxThreads - liveThreads s)
    ∧ liveThreads (ConnectionPar.startRun maxThreads s) = maxThreads
    ∧ (ConnectionPar.startRun maxThreads s).terminateBool = false
    ∧ (liveThreads s = maxThreads →
        (ConnectionPar.startRun maxThreads s).workers = s.workers
        ∧ ConnectionPar.startRun maxThreads s
            = { s with terminateBool := false }) := by
  refine ⟨?_, ?_, rfl, ?_⟩
  · simp [ConnectionPar.startRun]
  · simp only [liveThreads, ConnectionPar.startRun, List.countP_append]
    rw [countP_replicate_eq]
    simp only [liveThreads] at h
    simp only [if_pos]
    omega
  · intro heq
    have hz : maxThreads - liveThreads s = 0 := by omega
    have hw : (ConnectionPar.startRun maxThreads s).workers = s.workers := by
      simp [ConnectionPar.startRun, hz]
    refine ⟨hw, ?_⟩
    cases s with
    | mk queue tb ws del el dl =>
        simp only [ConnectionPar.startRun] at hw ⊢
        rw [hw]

/-- Witness for C7 (amended) at the concrete state `s7` with configured
size 2. -/
theorem claim_C7_start_deficit_witness :
    liveThreads s7 ≤ 2
    ∧ ((ConnectionPar.startRun 2 s7).workers.length
          = s7.workers.length + (2 - liveThreads s7)
        ∧ liveThreads (ConnectionPar.startRun 2 s7) = 2
        ∧ (ConnectionPar.startRun 2 s7).terminateBool = false
        ∧ (liveThreads s7 = 2 →
            (ConnectionPar.startRun 2 s7).workers = s7.workers
            ∧ ConnectionPar.startRun 2 s7 = { s7 with terminateBool := false })) :=
  ⟨by decide, claim_C7_start_deficit 2 s7 (by decide)⟩

/-- C8: appending K elements to a `SetContainer` via `manufacture`
(sql.hpp line 422, `push_back` at the tail) and then iterating forward
(begin-to-end) yields exactly those K elements in append order; after an
append, one `trim` (sql.hpp line 352) reduces the size by exactly 1 and
removes precisely the most recently appended element, leaving all earlier
elements unchanged. -/
theorem claim_C8_container_roundtrip {α : Type} (xs l : List α) (x : α) :
    SetContainer.toListFwd (SetContainer.manufactureAll [] xs) = xs
    ∧ SetContainerPar.size (SetContainer.manufactureAll [] xs) = xs.length
    ∧ SetContainerPar.trim (SetContainer.manufacture l x).1 = some l
    ∧ SetContainerPar.size (SetContainer.manufacture l x).1
        = SetContainerPar.size l + 1 := by
  refine ⟨?_, ?_, SetContainerPar.trim_append l x, ?_⟩
  · rw [SetContainer.manufactureAll_eq, List.nil_append,
      SetContainer.toListFwd_eq]
  · rw [SetContainer.manufactureAll_eq]
    simp [SetContainerPar.size]
  · simp [SetContainer.manufacture, SetContainerPar.size]

/-- C9: the base-class default implementation of the field-size accessor
(`virtual size_t getSqlSize(size_t index) const { }`, sql.hpp line 309)
contains no return statement, so it defines no return value: for every
index, the unoverridden default yields no specified result (modelled as
`none`), and any record type with fixed binary/char fields must override
it to obtain a meaningful size. -/
theorem claim_C9_default_size (index : Nat) :
    Fastcgipp.Sql.Data.Set.getSqlSize index = none := rfl

/-- C10: `trim` erases the element before the end iterator of the
underlying list (`data.erase(--data.end())`, sql.hpp line 352), which is
well-defined exactly when the collection is non-empty: on the empty
collection the call is undefined (`none`), and every well-defined call
requires at least one prior un-trimmed append. -/
theorem claim_C10_trim_empty_undefined {α : Type} (data : List α) :
    SetContainerPar.trim ([] : List α) = none
    ∧ ((SetContainerPar.trim data).isSome ↔ data ≠ []) := by
  refine ⟨rfl, ?_⟩
  cases data <;> simp [SetContainerPar.trim]
